import Mathlib

/-!
Verification development for `nemlig_cli.py`, a command-line client for the
nemlig.com grocery API.  The Python source is shallowly embedded: every pure
piece of logic (response checks, scans, formatters, exit-code branches) becomes
an executable Lean definition over explicit data, and HTTP responses become
explicit inputs.  JSON dictionaries are embedded as records of `Option` fields
(`none` models an absent key, matching Python's `dict.get` defaults); JSON
numbers are embedded as exact rationals.
-/

namespace Nemlig

/-! ## Exceptions

The program can raise three kinds of exceptions: the generic Python base
`Exception` (raised directly by `login` on a failed login), the custom
`ProductNotFoundError` class declared at the top of the file, and
`requests.exceptions.HTTPError` from `raise_for_status` (carrying status and
body).  `exc_class_name` gives the Python class name of each. -/

inductive PyExc where
  | exc (msg : String)
  | productNotFoundError (msg : String)
  | httpError (status : Nat) (body : String)
  deriving DecidableEq, Repr

/-- The Python class name of a raised exception value. -/
def exc_class_name : PyExc → String
  | .exc _ => "Exception"
  | .productNotFoundError _ => "ProductNotFoundError"
  | .httpError _ _ => "HTTPError"

/-! ## Login response check (`login`, lines 106-113)

After the login POST succeeds at the HTTP level (`raise_for_status` passed,
so the response is 2xx) the code parses the JSON body and checks
`if "RedirectUrl" not in login_result: raise Exception(f"Login failed: ...")`.
The parsed JSON object is embedded as an association list of string fields. -/

/-- Keys of an embedded JSON object. -/
def jsonKeys (obj : List (String × String)) : List String :=
  obj.map Prod.fst

/-- The message of the exception raised on a failed login
(`f"Login failed: {login_result}"`); the dict repr is modelled as a simple
rendering of the fields. -/
def login_fail_msg (obj : List (String × String)) : String :=
  "Login failed: " ++ String.intercalate ", " (obj.map fun kv => kv.1 ++ ": " ++ kv.2)

/-- The post-HTTP part of `login` step 3: succeeds iff the 2xx JSON response
contains the key `"RedirectUrl"`, otherwise raises a plain `Exception`. -/
def login_check (login_result : List (String × String)) : Except PyExc Unit :=
  if (jsonKeys login_result).contains "RedirectUrl" then
    Except.ok ()
  else
    Except.error (PyExc.exc (login_fail_msg login_result))

/-! ## Request headers and the handshake's correlation ids
(`get_common_headers` lines 51-61, `login` lines 72-126)

Headers are a Python dict, embedded as an association list with
assignment-replaces-value semantics.  `uuid.uuid4()` draws a fresh random
identifier; it is modelled as an injective stream `f : Nat → String` consumed
by a counter, one draw per `str(uuid.uuid4())` in source order. -/

def getHeader (hs : List (String × String)) (k : String) : String :=
  match hs.find? (fun kv => kv.1 = k) with
  | some kv => kv.2
  | none => ""

def setHeader : List (String × String) → String → String → List (String × String)
  | [], k, v => [(k, v)]
  | (k', v') :: rest, k, v =>
      if k' = k then (k, v) :: rest else (k', v') :: setHeader rest k v

/-- Embedding of `get_common_headers()` with the freshly drawn correlation id `cid`. -/
def get_common_headers (cid : String) : List (String × String) :=
  [ ("Accept", "application/json, text/plain, */*"),
    ("Content-Type", "application/json"),
    ("User-Agent", "Mozilla/5.0 (X11; Linux x86_64) AppleWebKit/537.36 (KHTML, like Gecko) Chrome/136.0.0.0 Safari/537.36"),
    ("Device-Size", "desktop"),
    ("Platform", "web"),
    ("Version", "11.201.0"),
    ("X-Correlation-Id", cid) ]

/-- The `X-Correlation-Id` header value carried by each of the five HTTP
requests of the `login` handshake, in source order: (1) the AntiForgery fetch,
(2) the Token fetch, (3) the login POST, (4) the post-login Token re-fetch,
(5) the post-login AntiForgery re-fetch.  `f` is the uuid stream;
`xsrf_token` and `bearer_token` are the values parsed from responses 1 and 2. -/
def login_correlation_ids (f : Nat → String) (xsrf_token bearer_token : String) :
    List String :=
  -- headers = get_common_headers()  (draw f 0)
  let h := get_common_headers (f 0)
  -- request 1: GET /webapi/AntiForgery
  let c1 := getHeader h "X-Correlation-Id"
  -- headers["X-Correlation-Id"] = str(uuid.uuid4())  (draw f 1)
  let h := setHeader h "X-Correlation-Id" (f 1)
  -- request 2: GET /webapi/Token
  let c2 := getHeader h "X-Correlation-Id"
  -- headers["X-Correlation-Id"] = str(uuid.uuid4())  (draw f 2)
  let h := setHeader h "X-Correlation-Id" (f 2)
  let h := setHeader h "X-XSRF-TOKEN" xsrf_token
  let h := setHeader h "Authorization" ("Bearer " ++ bearer_token)
  let h := setHeader h "Referer" "https://www.nemlig.com/login?returnUrl=%2F"
  -- request 3: POST /webapi/login
  let c3 := getHeader h "X-Correlation-Id"
  -- headers["X-Correlation-Id"] = str(uuid.uuid4())  (draw f 3)
  let h := setHeader h "X-Correlation-Id" (f 3)
  -- request 4: GET /webapi/Token  (fresh tokens after login)
  let c4 := getHeader h "X-Correlation-Id"
  -- request 5: GET /webapi/AntiForgery  (no new id is assigned before it)
  let c5 := getHeader h "X-Correlation-Id"
  [c1, c2, c3, c4, c5]

/-! ## HTML stripping (`strip_html_tags`, lines 322-324)

`re.sub(r"<[^>]+>", "", html).strip()`: a match is a `'<'`, then one or more
characters other than `'>'` (greedy, so exactly the run up to the first
following `'>'`), then that `'>'`; matches are removed left to right and the
result is stripped of leading/trailing whitespace. -/

/-- One scan of `re.sub(r"<[^>]+>", "", _)` over a character list.  The second
argument is `none` outside a candidate match and `some buf` after an opening
`'<'`, with `buf` the (reversed) characters read since it; `'>'` is excluded
from `[^>]+`, so a candidate closes at the first following `'>'` and the span
is dropped when at least one character stood in between.  An unclosed or empty
(`"<>"`) candidate is emitted unchanged, matching the regex finding no match
there. -/
def removeTagsAux : List Char → Option (List Char) → List Char
  | [], none => []
  | [], some buf => '<' :: buf.reverse
  | c :: rest, none =>
    if c = '<' then removeTagsAux rest (some [])
    else c :: removeTagsAux rest none
  | c :: rest, some buf =>
    if c = '>' then
      if buf.isEmpty then '<' :: '>' :: removeTagsAux rest none
      else removeTagsAux rest none
    else removeTagsAux rest (some (c :: buf))

/-- Embedding of `re.sub(r"<[^>]+>", "", _)` on a character list. -/
def removeTags (l : List Char) : List Char :=
  removeTagsAux l none

/-- Python `str.isspace` characters relevant to `str.split()` / `str.strip()`
on ASCII text: space, tab, newline, carriage return, vertical tab, form feed. -/
def isPySpace (c : Char) : Bool :=
  c = ' ' || c = '\t' || c = '\n' || c = '\r' || c = '\x0b' || c = '\x0c'

/-- Python `str.strip()`: drop leading and trailing whitespace. -/
def pyStrip (l : List Char) : List Char :=
  ((l.dropWhile isPySpace).reverse.dropWhile isPySpace).reverse

/-- Embedding of `strip_html_tags(html)`: remove tags, then strip. -/
def strip_html_tags (html : String) : String :=
  String.mk (pyStrip (removeTags html.data))

/-! ## Word wrapping (`wrap_text`, lines 327-346)

`text.split()` splits on runs of whitespace discarding empties; the loop packs
words into lines of at most `width` characters starting each line with
`indent`; the trailing line is appended when its stripped content is
non-empty. -/

/-- Python `str.split()` (no separator argument) on a character list: split on
runs of whitespace, discarding empty pieces.  The accumulator holds the
(reversed) characters of the word being read. -/
def splitWsAux : List Char → List Char → List (List Char)
  | [], acc => if acc.isEmpty then [] else [acc.reverse]
  | c :: rest, acc =>
    if isPySpace c then
      if acc.isEmpty then splitWsAux rest []
      else acc.reverse :: splitWsAux rest []
    else splitWsAux rest (c :: acc)

/-- Python `str.split()` on a character list. -/
def splitWsChars (l : List Char) : List (List Char) :=
  splitWsAux l []

/-- Python `str.split()` on a string. -/
def pySplit (text : String) : List String :=
  (splitWsChars text.data).map String.mk

/-- The `for word in words` loop of `wrap_text`, threading the `lines`
accumulator and `current_line`. -/
def wrapLoop (width : Nat) (indent : String) :
    List String → List String → String → List String × String
  | [], lines, current => (lines, current)
  | word :: ws, lines, current =>
    if current.length + word.length + 1 > width then
      wrapLoop width indent ws (lines ++ [current]) (indent ++ word)
    else if current = indent then
      wrapLoop width indent ws lines (current ++ word)
    else
      wrapLoop width indent ws lines (current ++ " " ++ word)

/-- The epilogue of `wrap_text`: `if current_line.strip(): lines.append(...)`. -/
def wrapFinish (lines : List String) (current : String) : List String :=
  if (pyStrip current.data).isEmpty then lines else lines ++ [current]

/-- Embedding of `wrap_text(text, width, indent)`. -/
def wrap_text (text : String) (width : Nat) (indent : String) : List String :=
  let st := wrapLoop width indent (pySplit text) [] indent
  wrapFinish st.1 st.2

/-- The whitespace-separated words of a list of output lines, in order. -/
def lineWords (lines : List String) : List (List Char) :=
  (lines.map fun l => splitWsChars l.data).flatten

/-- A word as produced by `str.split()`: nonempty and free of whitespace. -/
def IsWord (w : List Char) : Prop :=
  w ≠ [] ∧ ∀ c ∈ w, isPySpace c = false

/-- Words joined by single spaces — the shape `current_line` accumulates
after its indent. -/
def sjoinChars : List (List Char) → List Char
  | [] => []
  | [w] => w
  | w :: ws => w ++ ' ' :: sjoinChars ws

/-! ## Number rendering

JSON numbers are embedded as exact rationals.  Python's `f"{x:.2f}"` /
`f"{x:.0f}"` render a number with a fixed number of decimals; they are
modelled by exact decimal rounding (round half up; every numeric value
appearing in the claims is an exact multiple of 0.01, where all rounding
modes agree). -/

/-- Model of `f"{q:.2f}"`: sign, integer part, `'.'`, two decimal digits.  For a
non-negative `q = n / d` the amount in hundredths, rounded half up, is
`⌊q * 100 + 1 / 2⌋ = (200 * n + d) / (2 * d)`, computed here directly on the
numerator and denominator. -/
def formatFixed2 (q : ℚ) : String :=
  let qa := if q < 0 then -q else q
  let cents : ℤ := (200 * qa.num + qa.den) / (2 * (qa.den : ℤ))
  let ip := cents / 100
  let fp := cents % 100
  (if q < 0 ∧ cents ≠ 0 then "-" else "") ++
    toString ip ++ "." ++ (if fp < 10 then "0" else "") ++ toString fp

/-- Model of `f"{q:.0f}"`: sign and rounded integer part only. -/
def formatFixed0 (q : ℚ) : String :=
  let qa := if q < 0 then -q else q
  let n : ℤ := (2 * qa.num + qa.den) / (2 * (qa.den : ℤ))
  (if q < 0 ∧ n ≠ 0 then "-" else "") ++ toString n

/-! ## Products and `format_product` (lines 349-364)

A search-result product dictionary; `none` models an absent key. -/

structure AvailabilityRec where
  IsAvailableInStock : Option Bool
  IsDeliveryAvailable : Option Bool
  deriving DecidableEq, Repr

structure ProductRec where
  Id : Option String
  Name : Option String
  Brand : Option String
  Description : Option String
  Price : Option ℚ
  PrimaryImage : Option String
  Availability : Option AvailabilityRec
  deriving DecidableEq, Repr

/-- A product dictionary with every optional field absent. -/
def emptyProduct : ProductRec :=
  { Id := none, Name := none, Brand := none, Description := none,
    Price := none, PrimaryImage := none, Availability := none }

/-- The local variables of `format_product` (lines 351-357): each field
access supplies a default for a missing key, exactly as in the source. -/
structure ProductFields where
  price : ℚ
  name : String
  brand : String
  description : String
  product_id : String
  image_url : String
  available : Bool
  deriving DecidableEq, Repr

def format_product_fields (product : ProductRec) : ProductFields :=
  { price := product.Price.getD 0,
    name := product.Name.getD "Unknown",
    brand := product.Brand.getD "",
    description := product.Description.getD "",
    product_id := product.Id.getD "",
    image_url := product.PrimaryImage.getD "",
    available :=
      ((product.Availability.getD
          { IsAvailableInStock := none, IsDeliveryAvailable := none }
        ).IsAvailableInStock).getD false }

/-- Embedding of `format_product(product)`: the rendered display line. -/
def format_product (product : ProductRec) : String :=
  let f := format_product_fields product
  let availability_str := if f.available then "In stock" else "OUT OF STOCK"
  let line := "  [" ++ f.product_id ++ "] " ++ f.name ++ " (" ++ f.brand ++ ") - "
      ++ formatFixed2 f.price ++ " kr - " ++ f.description
      ++ " [" ++ availability_str ++ "]"
  if f.image_url.length != 0 then line ++ "\n    Image: " ++ f.image_url else line

/-! ## Orders and `format_order_details` (lines 379-453) -/

structure OrderLine where
  ProductName : Option String
  Quantity : Option ℚ
  Amount : Option ℚ
  AverageItemPrice : Option ℚ
  ProductNumber : Option String
  Description : Option String
  HasCampaign : Option Bool
  deriving DecidableEq, Repr

/-- An order record as consumed by `format_order_details`. -/
structure OrderRec where
  OrderNumber : Option String
  Id : Option Int
  Total : Option ℚ
  SubTotal : Option ℚ
  deriving DecidableEq, Repr

/-- Embedding of `format_order_line(line)` (lines 411-422). -/
def format_order_line (line : OrderLine) : String :=
  let name := line.ProductName.getD "Unknown"
  let quantity := line.Quantity.getD 0
  let amount := line.Amount.getD 0
  let avg_price := line.AverageItemPrice.getD 0
  let product_num := line.ProductNumber.getD ""
  let description := line.Description.getD ""
  let has_campaign := line.HasCampaign.getD false
  let campaign_str := if has_campaign then " [OFFER]" else ""
  "  [" ++ product_num ++ "] " ++ name ++ " - " ++ description ++ " x"
    ++ formatFixed0 quantity ++ " @ " ++ formatFixed2 avg_price ++ " kr = "
    ++ formatFixed2 amount ++ " kr" ++ campaign_str

/-- The monetary values of `format_order_details` (lines 429-433):
subtotal, delivery fee and total, in display order. -/
def format_order_details_amounts (order : OrderRec) : ℚ × ℚ × ℚ :=
  let total := order.Total.getD 0
  let subtotal := order.SubTotal.getD 0
  let delivery_fee := total - subtotal
  (subtotal, delivery_fee, total)

/-- Embedding of `format_order_details(order, lines)`: the rendered output lines, joined
with newlines by the caller of this list. -/
def format_order_details_lines (order : OrderRec) (lines : List OrderLine) :
    List String :=
  let order_num := order.OrderNumber.getD "Unknown"
  let order_id := order.Id
  let a := format_order_details_amounts order
  let header := "Order " ++ order_num
  let line_total := (lines.map fun line => line.Amount.getD 0).sum
  [ header,
    String.mk (List.replicate header.length '='),
    "",
    "Order ID:     " ++ (match order_id with | some i => toString i | none => ""),
    "Subtotal:     " ++ formatFixed2 a.1 ++ " kr",
    "Delivery:     " ++ formatFixed2 a.2.1 ++ " kr",
    "Total:        " ++ formatFixed2 a.2.2 ++ " kr",
    "",
    "Items (" ++ toString lines.length ++ "):" ]
  ++ lines.map format_order_line
  ++ [ "", "  Lines total: " ++ formatFixed2 line_total ++ " kr" ]

def format_order_details (order : OrderRec) (lines : List OrderLine) : String :=
  String.intercalate "\n" (format_order_details_lines order lines)

/-! ## Product details lookup (`get_product_details`, lines 267-319)

The function first searches for the ID string (`limit=5`, so the server
returns at most the top 5 hits), scans the results for the first product whose
`"Id"` equals the requested id and takes its `"Url"`, fails when that URL is
missing or empty (`if not product_url`), then fetches the product page and
scans its `content` array for the item whose `"TemplateName"` is
`"productdetailspot"`.  The two HTTP responses are explicit inputs here: the
returned search-result list and the `content` array of the page. -/

/-- A search-result product as consulted by `get_product_details`. -/
structure SearchProduct where
  Id : Option String
  Url : Option String
  deriving DecidableEq, Repr

/-- An element of the rendered page's `content` array. -/
structure ContentItem where
  TemplateName : Option String
  deriving DecidableEq, Repr

/-- The `for p in products` scan (lines 280-284): the `"Url"` of the first
product whose `"Id"` equals `product_id`, `none` when no product matches
(`product_url` stays `None`) or the matching product has no `"Url"` key. -/
def scan_for_url (product_id : String) : List SearchProduct → Option String
  | [] => none
  | p :: ps =>
      if p.Id = some product_id then p.Url else scan_for_url product_id ps

/-- Python truthiness of `product_url` in `if not product_url:`:
`None` and `""` are falsy. -/
def truthyStr : Option String → Bool
  | none => false
  | some s => s.length != 0

/-- Embedding of `get_product_details(product_id)` given the search results and the
`content` array of the product page. -/
def get_product_details (product_id : String) (products : List SearchProduct)
    (content : List ContentItem) : Except PyExc ContentItem :=
  let product_url := scan_for_url product_id products
  if truthyStr product_url = false then
    Except.error (PyExc.productNotFoundError
      ("Product " ++ product_id ++ " not found. Search returned "
        ++ toString products.length ++ " products but none matched ID."))
  else
    match content.find? (fun item => item.TemplateName = some "productdetailspot") with
    | some item => Except.ok item
    | none =>
        Except.error (PyExc.productNotFoundError
          ("Product " ++ product_id ++ ": No 'productdetailspot' in response."))

/-- Whether the result of `get_product_details` is a raised
`ProductNotFoundError`. -/
def raisesProductNotFound (r : Except PyExc ContentItem) : Bool :=
  match r with
  | Except.error (PyExc.productNotFoundError _) => true
  | _ => false

/-! ## Order history lookup (`cmd_history`, lines 628-653, and
`MAX_ORDER_HISTORY_LOOKUP`, line 48) -/

/-- Maximum orders to scan when looking up by ID. -/
def MAX_ORDER_HISTORY_LOOKUP : Nat := 100

/-- An order summary from the history list; the by-ID lookup consults only
its `"Id"` field (an integer, as is the `order_id` CLI argument). -/
structure OrderSummary where
  Id : Option Int
  deriving DecidableEq, Repr

/-- Modelled from the spec: the external `GetBasicOrderHistory` endpoint is a
paginated window over the user's full order history — the `"Orders"` field of
`get_order_history(auth, skip, take)` holds `take` orders starting after the
first `skip`, in history order. -/
def get_order_history_orders (allOrders : List OrderSummary) (skip tk : Nat) :
    List OrderSummary :=
  (allOrders.drop skip).take tk

/-- The by-ID branch of `cmd_history` (lines 633-639): fetch one page with
`skip=0, take=MAX_ORDER_HISTORY_LOOKUP` and scan it for the first order whose
`"Id"` equals `order_id`. -/
def history_lookup (allOrders : List OrderSummary) (order_id : Int) :
    Option OrderSummary :=
  (get_order_history_orders allOrders 0 MAX_ORDER_HISTORY_LOOKUP).find?
    (fun o => o.Id = some order_id)

/-- A concrete 101-entry order history: the order at (1-based) position
`n` has `Id = n`, so the order at position 101 has `Id = 101` and lies just
beyond the scanned window. -/
def hist101 : List OrderSummary :=
  (List.range 101).map fun n => { Id := some ((n : Int) + 1) }

/-! ## Exit codes (`cmd_*` returns and the `main` handlers, lines 533-744)

Each subcommand handler returns the process exit code; `main` maps any
propagated exception (`HTTPError` or any other `Exception`) to 1. -/

/-- Embedding of `cmd_search` (lines 533-549): exit 1 on an empty result list, else 0. -/
def cmd_search_exit (products : List ProductRec) : Nat :=
  if products.isEmpty then 1 else 0

/-- A basket line item (`format_basket_line`, lines 367-376). -/
structure BasketLine where
  Name : Option String
  Brand : Option String
  Quantity : Option Int
  ItemPrice : Option ℚ
  Price : Option ℚ
  Id : Option String
  deriving DecidableEq, Repr

/-- Embedding of `format_basket_line(line)`. -/
def format_basket_line (line : BasketLine) : String :=
  let name := line.Name.getD "Unknown"
  let brand := line.Brand.getD ""
  let quantity := line.Quantity.getD 0
  let item_price := line.ItemPrice.getD 0
  let total_price := line.Price.getD 0
  let product_id := line.Id.getD ""
  "  [" ++ product_id ++ "] " ++ name ++ " (" ++ brand ++ ") x"
    ++ toString quantity ++ " @ " ++ formatFixed2 item_price ++ " kr = "
    ++ formatFixed2 total_price ++ " kr"

/-- Embedding of `cmd_basket` (lines 552-572): exit 0 whether or not the basket is empty. -/
def cmd_basket_exit (basket_lines : List BasketLine) : Nat :=
  if basket_lines.isEmpty then 0 else 0

/-- The list branch of `cmd_history` (lines 655-671): 0 whether or not any
orders exist. -/
def cmd_history_list_exit (orders : List OrderSummary) : Nat :=
  if orders.isEmpty then 0 else 0

/-- The by-ID branch of `cmd_history` (lines 628-653): 1 when the order is
not in the scanned page, else 0. -/
def cmd_history_byid_exit (allOrders : List OrderSummary) (order_id : Int) : Nat :=
  match history_lookup allOrders order_id with
  | none => 1
  | some _ => 0

/-- Embedding of `cmd_details` (lines 605-620): catches `ProductNotFoundError` and returns
1; any other exception propagates to `main`. -/
def cmd_details_exit (r : Except PyExc ContentItem) : Except PyExc Nat :=
  match r with
  | Except.error (PyExc.productNotFoundError _) => Except.ok 1
  | Except.error e => Except.error e
  | Except.ok _ => Except.ok 0

/-- The `try/except` of `main` (lines 718-744): a handler's return value is
the exit code; a propagated `HTTPError` or any other exception yields 1. -/
def main_exit (r : Except PyExc Nat) : Nat :=
  match r with
  | Except.ok code => code
  | Except.error (PyExc.httpError _ _) => 1
  | Except.error _ => 1

end Nemlig

namespace Nemlig

/-! ## Claim C1 -/

/-- Claim C1 as stated is refuted at the concrete 2xx login response
`{"Error": "bad credentials"}`: the code does treat it as a failure (the
check raises, never success), but the raised exception is the generic Python
base `Exception` — its class is `"Exception"`, not a distinct `"AuthError"`;
the program defines no `AuthError` class at all. -/
theorem C1_counterexample :
    login_check [("Error", "bad credentials")] =
      Except.error (PyExc.exc (login_fail_msg [("Error", "bad credentials")])) ∧
    exc_class_name (PyExc.exc (login_fail_msg [("Error", "bad credentials")])) =
      "Exception" ∧
    exc_class_name (PyExc.exc (login_fail_msg [("Error", "bad credentials")])) ≠
      "AuthError" := by
  refine ⟨rfl, rfl, ?_⟩
  decide

/-- Claim C1 (amended): when the 2xx login JSON lacks the `"RedirectUrl"`
key, the authenticator treats it as authentication failure — it raises, never
succeeds, and the raised exception is the generic base `Exception` (class
`"Exception"`), not an HTTP error; when the key is present the check
succeeds. -/
theorem C1_login_failure (login_result : List (String × String)) :
    ("RedirectUrl" ∈ jsonKeys login_result →
        login_check login_result = Except.ok ()) ∧
    ("RedirectUrl" ∉ jsonKeys login_result →
        login_check login_result =
          Except.error (PyExc.exc (login_fail_msg login_result)) ∧
        (∀ e, login_check login_result = Except.error e →
            exc_class_name e = "Exception") ∧
        ∀ u, login_check login_result ≠ Except.ok u) := by
  constructor
  · intro hmem
    simp [login_check, hmem]
  · intro hmem
    have h1 : login_check login_result =
        Except.error (PyExc.exc (login_fail_msg login_result)) := by
      simp [login_check, hmem]
    refine ⟨h1, ?_, ?_⟩
    · intro e he
      rw [h1] at he
      cases he
      rfl
    · intro u h
      rw [h1] at h
      simp at h

/-- Witness for C1: the amended failure behaviour at the concrete response
`{"Error": "bad credentials"}`. -/
theorem C1_login_failure_witness :
    login_check [("Error", "bad credentials")] =
      Except.error (PyExc.exc (login_fail_msg [("Error", "bad credentials")])) ∧
    ∀ u, login_check [("Error", "bad credentials")] ≠ Except.ok u := by
  have H := (C1_login_failure [("Error", "bad credentials")]).2 (by decide)
  exact ⟨H.1, H.2.2⟩

end Nemlig

namespace Nemlig

/-! ## Claim C5 -/

/-- Claim C5 as stated is refuted on a concrete injective uuid stream
(`fun n => toString n`): the five handshake requests carry the ids
`["0", "1", "2", "3", "3"]` — the post-login AntiForgery re-fetch (request 5)
reuses the id drawn for the post-login Token re-fetch (request 4), so the
five ids are not pairwise distinct. -/
theorem C5_counterexample :
    login_correlation_ids (fun n => toString n) "xsrf" "bearer" =
      ["0", "1", "2", "3", "3"] ∧
    ¬ (login_correlation_ids (fun n => toString n) "xsrf" "bearer").Nodup := by
  constructor
  · rfl
  · decide

/-- Claim C5 (amended): for any injective uuid stream, the five handshake
requests carry the ids `[f 0, f 1, f 2, f 3, f 3]` — the first four requests
each carry a freshly drawn, pairwise-distinct id, while the fifth request
(the post-login AntiForgery re-fetch) reuses the fourth request's id. -/
theorem C5_handshake_ids (f : Nat → String) (hf : Function.Injective f)
    (xsrf_token bearer_token : String) :
    login_correlation_ids f xsrf_token bearer_token =
      [f 0, f 1, f 2, f 3, f 3] ∧
    [f 0, f 1, f 2, f 3].Nodup := by
  constructor
  · rfl
  · have h01 : f 0 ≠ f 1 := fun h => absurd (hf h) (by decide)
    have h02 : f 0 ≠ f 2 := fun h => absurd (hf h) (by decide)
    have h03 : f 0 ≠ f 3 := fun h => absurd (hf h) (by decide)
    have h12 : f 1 ≠ f 2 := fun h => absurd (hf h) (by decide)
    have h13 : f 1 ≠ f 3 := fun h => absurd (hf h) (by decide)
    have h23 : f 2 ≠ f 3 := fun h => absurd (hf h) (by decide)
    simp [List.nodup_cons, h01, h02, h03, h12, h13, h23]

/-- Witness for C5 at the concrete injective stream
`fun n => String.mk (List.replicate n 'a')`. -/
theorem C5_handshake_ids_witness :
    login_correlation_ids (fun n => String.mk (List.replicate n 'a')) "x" "b" =
      ["", "a", "aa", "aaa", "aaa"] ∧
    (["", "a", "aa", "aaa"] : List String).Nodup := by
  have hf : Function.Injective (fun n => String.mk (List.replicate n 'a')) := by
    intro a b h
    have hlen := congrArg (fun s : String => s.data.length) h
    simpa using hlen
  have H := C5_handshake_ids (fun n => String.mk (List.replicate n 'a')) hf "x" "b"
  exact H

end Nemlig

namespace Nemlig

/-! ## Claim C8 -/

/-- Claim C8: `strip_html_tags` removes HTML markup by simple tag removal;
`"<b>Hello</b> world"` becomes `"Hello world"`, and HTML entities are left
untouched (no entity decoding). -/
theorem C8_strip_html_tags :
    strip_html_tags "<b>Hello</b> world" = "Hello world" ∧
    strip_html_tags "5 &lt; 6 &amp; 7" = "5 &lt; 6 &amp; 7" := by
  exact ⟨by decide, by decide⟩

/-! ## Claim C6 -/

/-- Claim C6: for every order record, the delivery fee displayed by
`format_order_details` equals `Total - SubTotal`, every displayed total
equals subtotal plus delivery fee, and the concrete order with
`Total = 107.50`, `SubTotal = 100.00` displays delivery `7.50`. -/
theorem C6_order_details_delivery :
    (∀ o : OrderRec,
        (format_order_details_amounts o).2.1 =
          o.Total.getD 0 - o.SubTotal.getD 0) ∧
    (∀ o : OrderRec,
        (format_order_details_amounts o).2.2 =
          (format_order_details_amounts o).1 +
            (format_order_details_amounts o).2.1) ∧
    format_order_details_amounts
        { OrderNumber := none, Id := none,
          Total := some 107.50, SubTotal := some 100.00 } =
      (100, 7.50, 107.50) := by
  refine ⟨fun o => rfl, fun o => ?_, ?_⟩
  · simp only [format_order_details_amounts]
    ring
  · simp only [format_order_details_amounts, Option.getD_some]
    norm_num

/-! ## Claim C7 -/

/-- Claim C7 as stated is refuted at the product dictionary with every
optional field missing: `format_product` renders its brand as the empty
string `""`, not as `"Unknown"`. -/
theorem C7_counterexample :
    (format_product_fields emptyProduct).brand = "" ∧
    (format_product_fields emptyProduct).brand ≠ "Unknown" := by
  exact ⟨rfl, by decide⟩

/-- Claim C7 (amended): `format_product` is total — it renders any product
dictionary, including one missing any or all optional fields — with a
missing name defaulting to `"Unknown"`, a missing brand to the empty string
`""` (not `"Unknown"`), a missing price to `0`, and missing availability to
`false`. -/
theorem C7_format_product_defaults (product : ProductRec) :
    (product.Name = none → (format_product_fields product).name = "Unknown") ∧
    (product.Brand = none → (format_product_fields product).brand = "") ∧
    (product.Price = none → (format_product_fields product).price = 0) ∧
    (product.Availability = none →
        (format_product_fields product).available = false) := by
  refine ⟨fun h => ?_, fun h => ?_, fun h => ?_, fun h => ?_⟩ <;>
    simp [format_product_fields, h]

/-- Witness for C7 at the all-fields-missing product. -/
theorem C7_format_product_defaults_witness :
    (format_product_fields emptyProduct).name = "Unknown" ∧
    (format_product_fields emptyProduct).brand = "" ∧
    (format_product_fields emptyProduct).price = 0 ∧
    (format_product_fields emptyProduct).available = false := by
  have H := C7_format_product_defaults emptyProduct
  exact ⟨H.1 rfl, H.2.1 rfl, H.2.2.1 rfl, H.2.2.2 rfl⟩

/-! ## Claim C4 -/

/-- Claim C4 as stated is refuted at the concrete empty basket and the empty
order-history listing: `cmd_basket` and the listing branch of `cmd_history`
return exit code 0 on an empty result set, not 1. -/
theorem C4_counterexample :
    cmd_basket_exit [] = 0 ∧
    cmd_history_list_exit [] = 0 ∧
    cmd_basket_exit [] ≠ 1 := by
  exact ⟨rfl, rfl, by decide⟩

/-- Claim C4 (amended): exit codes are 0 on success and 1 on handled
failures — `search` exits 1 exactly on an empty result, the by-ID history
lookup exits 1 exactly when the order is not found, `details` exits 1 on
`ProductNotFoundError`, and `main` maps every propagated exception to 1 and
a handler's return value to itself — but an empty basket and an empty order
history are success (exit 0), not failures. -/
theorem C4_exit_codes :
    (∀ products : List ProductRec,
        cmd_search_exit products = if products.isEmpty then 1 else 0) ∧
    (∀ basket_lines : List BasketLine, cmd_basket_exit basket_lines = 0) ∧
    (∀ orders : List OrderSummary, cmd_history_list_exit orders = 0) ∧
    (∀ (allOrders : List OrderSummary) (order_id : Int),
        cmd_history_byid_exit allOrders order_id =
          if (history_lookup allOrders order_id).isNone then 1 else 0) ∧
    (∀ m, cmd_details_exit (Except.error (PyExc.productNotFoundError m)) =
        Except.ok 1) ∧
    (∀ item, cmd_details_exit (Except.ok item) = Except.ok 0) ∧
    (∀ code, main_exit (Except.ok code) = code) ∧
    (∀ e, main_exit (Except.error e) = 1) := by
  refine ⟨fun ps => rfl, ?_, ?_, ?_, fun m => rfl, fun item => rfl,
    fun code => rfl, ?_⟩
  · intro ls; cases ls <;> rfl
  · intro os; cases os <;> rfl
  · intro allOrders order_id
    unfold cmd_history_byid_exit
    cases h : history_lookup allOrders order_id <;> simp [h]
  · intro e; cases e <;> rfl

end Nemlig

namespace Nemlig

/-! ## Claims C2 and C10 -/

/-- The `for p in products` scan equals: find the first `"Id"` match, then
take its `"Url"`. -/
theorem scan_for_url_eq_find (product_id : String) (products : List SearchProduct) :
    scan_for_url product_id products =
      (products.find? (fun p => p.Id = some product_id)).bind SearchProduct.Url := by
  induction products with
  | nil => rfl
  | cons p ps ih =>
    unfold scan_for_url
    by_cases h : p.Id = some product_id
    · rw [if_pos h, List.find?_cons_of_pos _ (by simpa using h)]
      rfl
    · rw [if_neg h, List.find?_cons_of_neg _ (by simpa using h), ih]

/-- Claim C2 as stated is refuted at a concrete input: for requested id
`"1"`, a search result whose `"Id"` is exactly `"1"` (but whose `"Url"` is
missing) and a page content containing a `"productdetailspot"` item,
`get_product_details` raises `ProductNotFoundError` even though neither of
the claim's two conditions holds. -/
theorem C2_counterexample :
    raisesProductNotFound
        (get_product_details "1"
          [{ Id := some "1", Url := none }]
          [{ TemplateName := some "productdetailspot" }]) = true ∧
    ([{ Id := some "1", Url := none }] : List SearchProduct).any
        (fun p => p.Id == some "1") = true ∧
    ([{ TemplateName := some "productdetailspot" }] : List ContentItem).any
        (fun item => item.TemplateName == some "productdetailspot") = true := by
  decide

/-- Claim C2 (amended): `get_product_details` raises `ProductNotFoundError`
exactly when either (a) the first search result whose `"Id"` equals the
requested id has a missing or empty `"Url"` — including the case of no
`"Id"` match at all — or (b) the fetched page's content array has no
`"productdetailspot"` item; a search returning zero or only non-matching
results (e.g. for id `"999999"`) falls under (a). -/
theorem C2_product_not_found_iff (product_id : String)
    (products : List SearchProduct) (content : List ContentItem) :
    raisesProductNotFound (get_product_details product_id products content) = true ↔
      (truthyStr ((products.find? (fun p => p.Id = some product_id)).bind
            SearchProduct.Url) = false ∨
        content.find?
            (fun item => item.TemplateName = some "productdetailspot") = none) := by
  unfold get_product_details
  rw [← scan_for_url_eq_find]
  by_cases h : truthyStr (scan_for_url product_id products) = false
  · simp [h, raisesProductNotFound]
  · rw [if_neg h]
    cases hf : content.find?
        (fun item => item.TemplateName = some "productdetailspot") with
    | some item => simp [raisesProductNotFound, h, hf]
    | none => simp [raisesProductNotFound, h, hf]

/-- Claim C10: even when a search result's `"Id"` exactly matches the
requested product id, a missing or empty `"Url"` on that (first matching)
result makes `get_product_details` raise `ProductNotFoundError` — the
details fetch is not reached. -/
theorem C10_url_missing_raises (product_id : String)
    (products : List SearchProduct) (content : List ContentItem)
    (p : SearchProduct)
    (hfind : products.find? (fun q => q.Id = some product_id) = some p)
    (hurl : p.Url = none ∨ p.Url = some "") :
    raisesProductNotFound (get_product_details product_id products content) = true := by
  unfold get_product_details
  have hscan : scan_for_url product_id products = p.Url := by
    rw [scan_for_url_eq_find, hfind]
    rfl
  have ht : truthyStr (scan_for_url product_id products) = false := by
    rw [hscan]
    rcases hurl with h | h <;> rw [h] <;> rfl
  simp [ht, raisesProductNotFound]

/-- Witness for C10: requested id `"701025"` matches the sole search
result's `"Id"` exactly, but its `"Url"` is the empty string, so the lookup
raises `ProductNotFoundError` despite the exact match. -/
theorem C10_url_missing_raises_witness :
    raisesProductNotFound
        (get_product_details "701025"
          [{ Id := some "701025", Url := some "" }]
          [{ TemplateName := some "productdetailspot" }]) = true := by
  exact C10_url_missing_raises "701025"
    [{ Id := some "701025", Url := some "" }]
    [{ TemplateName := some "productdetailspot" }]
    { Id := some "701025", Url := some "" }
    rfl (Or.inr rfl)

/-! ## Claim C3 -/

/-- Claim C3: the by-ID history lookup scans exactly the single fetched page
`skip=0, take=MAX_ORDER_HISTORY_LOOKUP` — i.e. the first 100 orders of the
history — and any order id that does not occur among those first 100 orders
is reported as not found, no matter how many orders follow. -/
theorem C3_history_lookup_window (allOrders : List OrderSummary) (order_id : Int) :
    history_lookup allOrders order_id =
      (allOrders.take 100).find? (fun o => o.Id = some order_id) ∧
    ((∀ o ∈ allOrders.take MAX_ORDER_HISTORY_LOOKUP, o.Id ≠ some order_id) →
      history_lookup allOrders order_id = none) := by
  have h1 : history_lookup allOrders order_id =
      (allOrders.take 100).find? (fun o => o.Id = some order_id) := by
    unfold history_lookup get_order_history_orders MAX_ORDER_HISTORY_LOOKUP
    rw [List.drop_zero]
  refine ⟨h1, fun hall => ?_⟩
  rw [h1]
  apply List.find?_eq_none.mpr
  intro x hx
  simpa using hall x (by simpa [MAX_ORDER_HISTORY_LOOKUP] using hx)

/-- Witness for C3: in the concrete 101-order history `hist101`, whose last
order sits at position 101 with `Id = 101`, the by-ID lookup for 101 reports
not found. -/
theorem C3_history_lookup_window_witness :
    hist101.length = 101 ∧
    hist101.getLast? = some { Id := some 101 } ∧
    history_lookup hist101 101 = none := by
  refine ⟨by decide, by decide, ?_⟩
  exact (C3_history_lookup_window hist101 101).2 (by decide)

end Nemlig

namespace Nemlig

/-! ## Claim C9

`wrap_text` only ever moves whole words between lines, so the words of its
output, read line by line, are exactly the words of the input.  The proof
follows the loop: `current_line` always has the shape
`"  " ++ (words joined by single spaces)`, and splitting such a line
recovers exactly those words. -/

theorem splitWsAux_nil_of_ne (acc : List Char) (h : acc ≠ []) :
    splitWsAux [] acc = [acc.reverse] := by
  cases acc with
  | nil => exact absurd rfl h
  | cons a as => rfl

theorem splitWsAux_space_nil (c : Char) (l : List Char) (hc : isPySpace c = true) :
    splitWsAux (c :: l) [] = splitWsAux l [] := by
  simp [splitWsAux, hc]

theorem splitWsAux_space_ne (c : Char) (l : List Char) (acc : List Char)
    (hc : isPySpace c = true) (h : acc ≠ []) :
    splitWsAux (c :: l) acc = acc.reverse :: splitWsAux l [] := by
  cases acc with
  | nil => exact absurd rfl h
  | cons a as => simp [splitWsAux, hc]

/-- Reading a whitespace-free prefix just extends the accumulator. -/
theorem splitWsAux_append_nonspace (w : List Char) :
    ∀ (l acc : List Char), (∀ c ∈ w, isPySpace c = false) →
      splitWsAux (w ++ l) acc = splitWsAux l (w.reverse ++ acc) := by
  induction w with
  | nil => intro l acc _; simp
  | cons c w ih =>
    intro l acc hall
    have hc : isPySpace c = false := hall c (List.mem_cons_self c w)
    have hw : ∀ x ∈ w, isPySpace x = false :=
      fun x hx => hall x (List.mem_cons_of_mem c hx)
    show splitWsAux (c :: (w ++ l)) acc = _
    rw [show splitWsAux (c :: (w ++ l)) acc = splitWsAux (w ++ l) (c :: acc) by
      simp [splitWsAux, hc]]
    rw [ih l (c :: acc) hw]
    simp [List.append_assoc]

/-- Splitting single-space-joined words recovers exactly those words. -/
theorem splitWsChars_sjoin (ws : List (List Char)) (h : ∀ w ∈ ws, IsWord w) :
    splitWsChars (sjoinChars ws) = ws := by
  induction ws with
  | nil => rfl
  | cons w ws ih =>
    have hw : IsWord w := h w (List.mem_cons_self w ws)
    cases ws with
    | nil =>
      show splitWsAux (sjoinChars [w]) [] = [w]
      have h1 := splitWsAux_append_nonspace w [] [] hw.2
      rw [List.append_nil] at h1
      rw [show sjoinChars [w] = w from rfl, h1, List.append_nil,
        splitWsAux_nil_of_ne _ (by simpa using hw.1), List.reverse_reverse]
    | cons w' ws' =>
      have hws : ∀ u ∈ w' :: ws', IsWord u :=
        fun u hu => h u (List.mem_cons_of_mem w hu)
      show splitWsAux (sjoinChars (w :: w' :: ws')) [] = _
      rw [show sjoinChars (w :: w' :: ws') = w ++ ' ' :: sjoinChars (w' :: ws')
          from rfl]
      rw [splitWsAux_append_nonspace w _ [] hw.2, List.append_nil,
        splitWsAux_space_ne _ _ _ (by decide) (by simpa using hw.1),
        List.reverse_reverse]
      exact congrArg (w :: ·) (ih hws)

/-- Every piece produced by `str.split()` is a word. -/
theorem splitWsAux_words (l : List Char) :
    ∀ acc : List Char, (∀ c ∈ acc, isPySpace c = false) →
      ∀ w ∈ splitWsAux l acc, IsWord w := by
  induction l with
  | nil =>
    intro acc hacc w hw
    cases acc with
    | nil => simp [splitWsAux] at hw
    | cons a as =>
      rw [splitWsAux_nil_of_ne _ (by simp)] at hw
      rw [List.mem_singleton] at hw
      subst hw
      exact ⟨by simp, fun c hc => hacc c (List.mem_reverse.mp hc)⟩
  | cons c l ih =>
    intro acc hacc w hw
    cases hc : isPySpace c with
    | true =>
      cases acc with
      | nil =>
        rw [splitWsAux_space_nil _ _ hc] at hw
        exact ih [] (by simp) w hw
      | cons a as =>
        rw [splitWsAux_space_ne _ _ _ hc (by simp)] at hw
        rcases List.mem_cons.mp hw with h1 | h1
        · subst h1
          exact ⟨by simp, fun x hx => hacc x (List.mem_reverse.mp hx)⟩
        · exact ih [] (by simp) w h1
    | false =>
      rw [show splitWsAux (c :: l) acc = splitWsAux l (c :: acc) by
        simp [splitWsAux, hc]] at hw
      refine ih (c :: acc) ?_ w hw
      intro x hx
      rcases List.mem_cons.mp hx with h1 | h1
      · subst h1; exact hc
      · exact hacc x h1

/-- Appending one more word to a nonempty joined run. -/
theorem sjoinChars_append_singleton (ws : List (List Char)) (w : List Char)
    (h : ws ≠ []) :
    sjoinChars (ws ++ [w]) = sjoinChars ws ++ ' ' :: w := by
  induction ws with
  | nil => exact absurd rfl h
  | cons x ws ih =>
    cases ws with
    | nil => rfl
    | cons y ys =>
      show sjoinChars (x :: ((y :: ys) ++ [w])) = _
      rw [show sjoinChars (x :: ((y :: ys) ++ [w])) =
          x ++ ' ' :: sjoinChars ((y :: ys) ++ [w]) by
        cases ys <;> rfl]
      rw [ih (by simp),
        show sjoinChars (x :: y :: ys) = x ++ ' ' :: sjoinChars (y :: ys) from rfl]
      simp

theorem sjoinChars_cons_ne_nil (w : List Char) (ws : List (List Char))
    (hw : IsWord w) : sjoinChars (w :: ws) ≠ [] := by
  cases ws with
  | nil => exact hw.1
  | cons y ys =>
    show w ++ ' ' :: sjoinChars (y :: ys) ≠ []
    simp

/-- Splitting an indented joined run: the two leading blanks are dropped. -/
theorem splitWsChars_indent_sjoin (ws : List (List Char))
    (h : ∀ w ∈ ws, IsWord w) :
    splitWsChars (' ' :: ' ' :: sjoinChars ws) = ws := by
  show splitWsAux (' ' :: ' ' :: sjoinChars ws) [] = ws
  rw [splitWsAux_space_nil _ _ (by decide), splitWsAux_space_nil _ _ (by decide)]
  exact splitWsChars_sjoin ws h

theorem lineWords_append_singleton (lines : List String) (s : String) :
    lineWords (lines ++ [s]) = lineWords lines ++ splitWsChars s.data := by
  simp [lineWords]

/-- A line containing a non-whitespace character does not strip to empty. -/
theorem pyStrip_ne_nil (l : List Char) (c : Char) (hc : c ∈ l)
    (hns : isPySpace c = false) : pyStrip l ≠ [] := by
  intro h
  unfold pyStrip at h
  rw [List.reverse_eq_nil_iff, List.dropWhile_eq_nil_iff] at h
  have hcd : c ∈ l.dropWhile isPySpace := by
    have hsplit : c ∈ l.takeWhile isPySpace ++ l.dropWhile isPySpace := by
      rw [List.takeWhile_append_dropWhile]
      exact hc
    rcases List.mem_append.mp hsplit with h1 | h2
    · have := List.mem_takeWhile_imp h1
      rw [hns] at this
      exact absurd this (by simp)
    · exact h2
  have := h c (List.mem_reverse.mpr hcd)
  rw [hns] at this
  exact absurd this (by simp)

theorem wrapLoop_cons_flush (width : Nat) (indent word cur : String)
    (ws : List String) (lines : List String)
    (h : cur.length + word.length + 1 > width) :
    wrapLoop width indent (word :: ws) lines cur =
      wrapLoop width indent ws (lines ++ [cur]) (indent ++ word) := by
  simp [wrapLoop, h]

theorem wrapLoop_cons_start (width : Nat) (indent word cur : String)
    (ws : List String) (lines : List String)
    (h1 : ¬ cur.length + word.length + 1 > width) (h2 : cur = indent) :
    wrapLoop width indent (word :: ws) lines cur =
      wrapLoop width indent ws lines (cur ++ word) := by
  subst h2
  simp [wrapLoop, h1]

theorem wrapLoop_cons_more (width : Nat) (indent word cur : String)
    (ws : List String) (lines : List String)
    (h1 : ¬ cur.length + word.length + 1 > width) (h2 : cur ≠ indent) :
    wrapLoop width indent (word :: ws) lines cur =
      wrapLoop width indent ws lines (cur ++ " " ++ word) := by
  simp [wrapLoop, h1, h2]

/-- The central loop invariant: with `current_line` holding exactly the
already-packed words `wsC` behind the two-blank indent, running the loop on
the remaining words and finishing yields output lines whose words are the
accumulated ones, then `wsC`, then the remaining words, in order. -/
theorem wrapLoop_preserves (width : Nat) (rem : List String) :
    ∀ (lines : List String) (cur : String) (wsC : List (List Char)),
      (∀ w ∈ wsC, IsWord w) →
      (∀ s ∈ rem, IsWord s.data) →
      cur.data = ' ' :: ' ' :: sjoinChars wsC →
      lineWords (wrapFinish (wrapLoop width "  " rem lines cur).1
          (wrapLoop width "  " rem lines cur).2) =
        lineWords lines ++ wsC ++ rem.map String.data := by
  induction rem with
  | nil =>
    intro lines cur wsC hws _ hcur
    show lineWords (wrapFinish lines cur) = _
    cases wsC with
    | nil =>
      unfold wrapFinish
      rw [hcur]
      rw [show sjoinChars ([] : List (List Char)) = [] from rfl]
      simp [pyStrip, isPySpace]
    | cons w ws'
      =>
      have hw : IsWord w := hws w (List.mem_cons_self w ws')
      obtain ⟨c, w', rfl⟩ : ∃ c w', w = c :: w' := by
        cases w with
        | nil => exact absurd rfl hw.1
        | cons c w' => exact ⟨c, w', rfl⟩
      have hchead : ∃ t, sjoinChars ((c :: w') :: ws') = c :: t := by
        cases ws' with
        | nil => exact ⟨w', rfl⟩
        | cons y ys => exact ⟨w' ++ ' ' :: sjoinChars (y :: ys), rfl⟩
      obtain ⟨t, ht⟩ := hchead
      have hcmem : c ∈ cur.data := by
        rw [hcur, ht]
        exact List.mem_cons_of_mem _ (List.mem_cons_of_mem _
          (List.mem_cons_self c t))
      have hcns : isPySpace c = false := hw.2 c (List.mem_cons_self c w')
      have hne := pyStrip_ne_nil cur.data c hcmem hcns
      unfold wrapFinish
      rw [if_neg (by simpa [List.isEmpty_iff] using hne)]
      rw [lineWords_append_singleton, hcur,
        splitWsChars_indent_sjoin _ hws]
      simp
  | cons word rest ih =>
    intro lines cur wsC hws hrem hcur
    have hword : IsWord word.data := hrem word (List.mem_cons_self word rest)
    have hrest : ∀ s ∈ rest, IsWord s.data :=
      fun s hs => hrem s (List.mem_cons_of_mem word hs)
    by_cases h1 : cur.length + word.length + 1 > width
    · rw [wrapLoop_cons_flush _ _ _ _ _ _ h1]
      have hcur' : ("  " ++ word).data = ' ' :: ' ' :: sjoinChars [word.data] := by
        rw [String.data_append]
        rfl
      rw [ih (lines ++ [cur]) ("  " ++ word) [word.data]
        (by intro u hu; rw [List.mem_singleton] at hu; subst hu; exact hword)
        hrest hcur']
      rw [lineWords_append_singleton, hcur, splitWsChars_indent_sjoin _ hws]
      simp [List.append_assoc]
    · by_cases h2 : cur = "  "
      · have hwsnil : wsC = [] := by
          cases wsC with
          | nil => rfl
          | cons w ws' =>
            have hw : IsWord w := hws w (List.mem_cons_self w ws')
            have hdata : cur.data = [' ', ' '] := by rw [h2]
            rw [hcur] at hdata
            have hnil : sjoinChars (w :: ws') = [] := by
              injection hdata with _ hd1
              injection hd1 with _ hd2
            exact absurd hnil (sjoinChars_cons_ne_nil w ws' hw)
        subst hwsnil
        rw [wrapLoop_cons_start _ _ _ _ _ _ h1 h2]
        have hcur' : (cur ++ word).data = ' ' :: ' ' :: sjoinChars [word.data] := by
          rw [String.data_append, h2]
          rfl
        rw [ih lines (cur ++ word) [word.data]
          (by intro u hu; rw [List.mem_singleton] at hu; subst hu; exact hword)
          hrest hcur']
        simp
      · have hwsC_ne : wsC ≠ [] := by
          intro hnil
          subst hnil
          exact h2 (String.ext (by rw [hcur]; rfl))
        rw [wrapLoop_cons_more _ _ _ _ _ _ h1 h2]
        have hcur' : (cur ++ " " ++ word).data =
            ' ' :: ' ' :: sjoinChars (wsC ++ [word.data]) := by
          rw [String.data_append, String.data_append, hcur,
            sjoinChars_append_singleton _ _ hwsC_ne]
          simp
        rw [ih lines (cur ++ " " ++ word) (wsC ++ [word.data])
          (by
            intro u hu
            rcases List.mem_append.mp hu with hx | hx
            · exact hws u hx
            · rw [List.mem_singleton] at hx; subst hx; exact hword)
          hrest hcur']
        simp [List.append_assoc]

/-- Claim C9: `wrap_text` preserves word content — concatenating the
whitespace-separated words of all returned lines, in order, yields exactly
the whitespace-separated words of the input, for every input string and
width (at the indent `"  "` used throughout the program). -/
theorem C9_wrap_text_preserves_words (text : String) (width : Nat) :
    lineWords (wrap_text text width "  ") = splitWsChars text.data := by
  have hrem : ∀ s ∈ pySplit text, IsWord s.data := by
    intro s hs
    obtain ⟨v, hv, rfl⟩ := List.mem_map.mp hs
    exact splitWsAux_words text.data [] (by simp) v hv
  have h := wrapLoop_preserves width (pySplit text) [] "  " []
    (by simp) hrem (by rfl)
  show lineWords (wrapFinish (wrapLoop width "  " (pySplit text) [] "  ").1
      (wrapLoop width "  " (pySplit text) [] "  ").2) = _
  rw [h]
  have hmaps : ∀ L : List (List Char), (L.map String.mk).map String.data = L := by
    intro L
    induction L with
    | nil => rfl
    | cons x xs ihx => simp [ihx]
  rw [show lineWords [] = [] from rfl, List.nil_append, List.nil_append,
    pySplit, hmaps]

end Nemlig
